import Mathlib

/-!
Verification development for the `vantage` task runner
(`src/vantage/task.py`).

The Python source is shallowly embedded: dictionaries become ordered
association lists (Python dicts preserve insertion order and have unique
keys), strings are Lean `String`s whose algorithms are re-implemented
structurally over `String.data : List Char` so that every definition is
executable by the kernel, list mutation (`run_args += ...`) becomes list
concatenation, and fallible code returns `Option`/`Except`.  Logging
(`utils.loquacious` and the `VG_VERBOSE` gate that only guards logging)
is omitted, matching the specification's exclusion of logging from the
core.
-/

/-! ## String primitives used by the embedding

Python `needle in s`, `s.replace(old, new)`, `s.splitlines()` and
`s.split(sep, 2)` are modelled over `List Char`.  `s.replace` in Python
replaces all non-overlapping occurrences left to right; `replaceFuel`
implements exactly that scan, with fuel `s.length` (sufficient because
every step consumes at least one character when the pattern is
non-empty; every pattern built by this code starts with a character such
as `$` or is a delimiter line containing `---`, hence is non-empty). -/

def containsL (pat : List Char) : List Char → Bool
  | [] => pat.isEmpty
  | c :: cs => pat.isPrefixOf (c :: cs) || containsL pat cs

def strContains (s pat : String) : Bool :=
  containsL pat.data s.data

def replaceFuel : Nat → List Char → List Char → List Char → List Char
  | 0, s, _, _ => s
  | _ + 1, [], _, _ => []
  | fuel + 1, c :: cs, pat, rep =>
    if pat.isEmpty then c :: cs
    else if pat.isPrefixOf (c :: cs) then
      rep ++ replaceFuel fuel ((c :: cs).drop pat.length) pat rep
    else
      c :: replaceFuel fuel cs pat rep

def strReplace (s pat rep : String) : String :=
  ⟨replaceFuel s.data.length s.data pat.data rep.data⟩

/-- Split on the newline conventions `\r\n`, `\r`, `\n` (the breaks that
occur in task files; the rarer `str.splitlines` break characters are not
produced by the inputs considered here).  A trailing break does not
produce a final empty line, matching Python `str.splitlines`. -/
def splitLinesRaw : List Char → List (List Char)
  | [] => [[]]
  | '\r' :: '\n' :: cs => [] :: splitLinesRaw cs
  | c :: cs =>
    if c = '\n' ∨ c = '\r' then [] :: splitLinesRaw cs
    else
      match splitLinesRaw cs with
      | [] => [[c]]
      | h :: t => (c :: h) :: t

def pySplitlines (s : String) : List String :=
  let r := splitLinesRaw s.data
  (if r.getLast? = some [] then r.dropLast else r).map fun l => ⟨l⟩

/-- First occurrence split: `some (before, after)` when `pat` occurs in
`s`, scanning left to right (the helper behind Python `s.split(sep, 2)`). -/
def splitFirst : List Char → List Char → Option (List Char × List Char)
  | [], pat => if pat.isEmpty then some ([], []) else none
  | c :: cs, pat =>
    if pat.isPrefixOf (c :: cs) then some ([], (c :: cs).drop pat.length)
    else (splitFirst cs pat).map fun bs => (c :: bs.1, bs.2)

/-- Python `content.split(sep, 2)` unpacked into exactly three parts;
`none` models the `ValueError` raised by `_, meta, script = ...` when
`sep` occurs fewer than twice. -/
def split2 (s pat : List Char) : Option (List Char × List Char × List Char) :=
  match splitFirst s pat with
  | none => none
  | some (a, rest) =>
    match splitFirst rest pat with
    | none => none
    | some (b, c) => some (a, b, c)

/-- Python `enumerate(args)`. -/
def enumFromN (i : Nat) : List α → List (Nat × α)
  | [] => []
  | a :: as => (i, a) :: enumFromN (i + 1) as

/-! ## Ordered dictionaries (Python `dict`)

`dset` is `d[k] = v`: the first binding of an existing key is replaced
in place, a missing key is appended; `dupdate` is `d.update(u)`;
`dlookup` is `d.get(k)`. -/

def dlookup (d : List (String × α)) (k : String) : Option α :=
  (d.find? fun kv => decide (kv.1 = k)).map Prod.snd

def dset (d : List (String × α)) (k : String) (v : α) : List (String × α) :=
  match d with
  | [] => [(k, v)]
  | kv :: rest => if kv.1 = k then (k, v) :: rest else kv :: dset rest k v

def dupdate (d u : List (String × α)) : List (String × α) :=
  u.foldl (fun acc kv => dset acc kv.1 kv.2) d

def firstSome : Option α → Option α → Option α
  | some a, _ => some a
  | none, b => b

abbrev EnvMap := List (String × String)

/-! ## `insert_env_vals` (src/vantage/task.py lines 90-99)

For each environment item in order, then for each trailing argument by
index, replace every occurrence of `$KEY` / `$i` (guarded, as in the
source, by a containment test that does not change the result). -/

def insert_env_vals (s : String) (env : EnvMap) (args : List String) : String :=
  let s1 := env.foldl
    (fun acc kv =>
      let needle := "$" ++ kv.1
      if strContains acc needle then strReplace acc needle kv.2 else acc) s
  (enumFromN 0 args).foldl
    (fun acc iv =>
      let needle := "$" ++ toString iv.1
      if strContains acc needle then strReplace acc needle iv.2 else acc) s1

/-- Claim C2 counterexample: the spec's own example `"$0 and $FOO"` with
args `["x"]` and env `{FOO: "$0"}` does not yield `"x and $0"`: the env
pass runs first and the `$0` it inserts is then rewritten by the
argument pass. -/
theorem c2_substitution_counterexample :
    insert_env_vals "$0 and $FOO" [("FOO", "$0")] ["x"] ≠ "x and $0" := by
  decide

/-- Claim C2 (amended): substitution is literal and single-pass per
key/index, applied sequentially — environment keys first in mapping
order, then argument indices — with each pass replacing every current
occurrence; a value substituted by an earlier pass is re-scanned by the
later passes (so the spec's example yields `"x and x"`), while a value
substituted by a later pass is not re-scanned by earlier ones, and
tokens with no matching key or index are left verbatim. -/
theorem c2_substitution_sequential :
    insert_env_vals "$0 and $FOO" [("FOO", "$0")] ["x"] = "x and x" ∧
    insert_env_vals "$FOO and $0" [("FOO", "$0")] ["x"] = "x and x" ∧
    insert_env_vals "$A $B" [("A", "$B"), ("B", "b")] [] = "b b" ∧
    insert_env_vals "$B $A" [("B", "b"), ("A", "$B")] [] = "b $B" ∧
    insert_env_vals "$HOME and $3" [] ["x"] = "$HOME and $3" := by
  decide

/-! ## Metadata data model

The YAML front matter parsed by `load_meta` yields a mapping; the fields
`task_cmd`/`update_env` read from it are modelled explicitly.  The
`image` field is either a bare tag string or a structured mapping whose
values are strings, booleans or lists of strings. -/

inductive ImageVal where
  | str (s : String)
  | bool (b : Bool)
  | list (l : List String)
deriving Repr, DecidableEq

inductive ImageMeta where
  | bare (tag : String)
  | structured (d : List (String × ImageVal))
deriving Repr, DecidableEq

structure MetaObj where
  image : Option ImageMeta
  overrides : Option EnvMap
  defaults : Option EnvMap
  runRequired : Option Bool
  requires : List String
deriving Repr, DecidableEq

/-! ## `update_env` (src/vantage/task.py lines 123-139)

`env.update(overrides)` then `defaults.update(env); env = defaults`.
The verbose-logging block (and its `env["VG_VERBOSE"]` read, which only
gates log output) is omitted. -/

def update_env (m : MetaObj) (env : EnvMap) : EnvMap :=
  let env1 := match m.overrides with
    | none => env
    | some o => dupdate env o
  match m.defaults with
  | none => env1
  | some d => dupdate d env1

/-! ## `get_flag` (src/vantage/task.py lines 142-147) and its call site
(lines 19-23).

`get_flag` itself distinguishes `None` from a boolean; but `task_cmd`
calls it with `env=bool(env.get("VG_RUN_REQUIRED"))`, which is always a
boolean (`bool(None)` is `False`), so the `env is None` branch is dead
at the only call site. -/

def get_flag (env yml : Option Bool) (default : Bool) : Bool :=
  match env with
  | none =>
    match yml with
    | none => default
    | some y => y
  | some e => e

/-- Python truthiness of `env.get(k)` for a string-valued dict:
`bool(None) = False`, `bool("") = False`, any other string is truthy. -/
def pyBoolOfOpt : Option String → Bool
  | none => false
  | some s => !s.isEmpty

/-- The `run_required` flag exactly as `task_cmd` computes it:
`get_flag(env=bool(env.get("VG_RUN_REQUIRED")), yml=meta.get("run-required"), default=False)`. -/
def task_cmd_run_required (env : EnvMap) (ymlRunRequired : Option Bool) : Bool :=
  get_flag (some (pyBoolOfOpt (dlookup env "VG_RUN_REQUIRED"))) ymlRunRequired false

/-- The list of prerequisite tasks `task_cmd` actually runs: the
declared `requires` when the computed flag is true, nothing otherwise
(the environment used is the one already put through `update_env`). -/
def task_cmd_prereqs (m : MetaObj) (env0 : EnvMap) : List String :=
  if task_cmd_run_required (update_env m env0) m.runRequired then m.requires else []

/-- Claim C1: on an environment with no `VG_RUN_REQUIRED` entry and
metadata with `run-required: true` and `requires: [setup]`, the code
resolves the flag to `false` and runs no prerequisite — because the call
site coerces the ambient value with `bool(...)`, which is never `None`,
so `get_flag`'s metadata branch is dead there; the third conjunct shows
`get_flag` itself would resolve to `true` had the absent ambient value
been passed as `None` as the three-way-precedence design intends. -/
theorem c1_run_required_env_coercion :
    task_cmd_run_required [("VG_APP_DIR", "/app")] (some true) = false ∧
    task_cmd_prereqs
      { image := none, overrides := none, defaults := none,
        runRequired := some true, requires := ["setup"] }
      [("VG_APP_DIR", "/app")] = [] ∧
    get_flag none (some true) false = true := by
  decide

/-! ## Dictionary lemmas for environment composition -/

theorem dlookup_nil (k : String) : dlookup ([] : List (String × α)) k = none := rfl

theorem dlookup_cons (a : String) (b : α) (d : List (String × α)) (k : String) :
    dlookup ((a, b) :: d) k = if a = k then some b else dlookup d k := by
  by_cases h : a = k <;> simp [dlookup, List.find?, h]

theorem dlookup_eq_none_of_not_mem {d : List (String × α)} {k : String}
    (h : k ∉ d.map Prod.fst) : dlookup d k = none := by
  induction d with
  | nil => rfl
  | cons kv rest ih =>
    obtain ⟨a, b⟩ := kv
    simp only [List.map_cons, List.mem_cons, not_or] at h
    rw [dlookup_cons, if_neg fun hak => h.1 hak.symm]
    exact ih h.2

theorem dset_cons_pos {rest : List (String × α)} {a k : String} (b v : α)
    (hak : a = k) : dset ((a, b) :: rest) k v = (k, v) :: rest := by
  simp [dset, hak]

theorem dset_cons_neg {rest : List (String × α)} {a k : String} (b v : α)
    (hak : ¬ a = k) : dset ((a, b) :: rest) k v = (a, b) :: dset rest k v := by
  simp [dset, hak]

theorem dlookup_dset (d : List (String × α)) (k : String) (v : α) (k' : String) :
    dlookup (dset d k v) k' = if k = k' then some v else dlookup d k' := by
  induction d with
  | nil =>
    show dlookup [(k, v)] k' = _
    rw [dlookup_cons, dlookup_nil]
  | cons kv rest ih =>
    obtain ⟨a, b⟩ := kv
    by_cases hak : a = k
    · rw [dset_cons_pos b v hak, dlookup_cons, dlookup_cons]
      by_cases hkk' : k = k'
      · rw [if_pos hkk', if_pos hkk']
      · rw [if_neg hkk', if_neg hkk', if_neg fun h => hkk' (hak.symm.trans h)]
    · rw [dset_cons_neg b v hak, dlookup_cons, ih, dlookup_cons]
      by_cases ha' : a = k'
      · rw [if_pos ha', if_neg fun h : k = k' => hak (ha'.trans h.symm), if_pos ha']
      · rw [if_neg ha']
        by_cases hkk' : k = k'
        · rw [if_pos hkk', if_pos hkk']
        · rw [if_neg hkk', if_neg hkk', if_neg ha']

theorem mem_keys_dset {d : List (String × α)} {k : String} {v : α} {x : String}
    (h : x ∈ (dset d k v).map Prod.fst) : x ∈ d.map Prod.fst ∨ x = k := by
  induction d with
  | nil =>
    right
    simpa [dset] using h
  | cons kv rest ih =>
    obtain ⟨a, b⟩ := kv
    by_cases hak : a = k
    · rw [dset_cons_pos b v hak] at h
      simp only [List.map_cons, List.mem_cons] at h ⊢
      rcases h with h | h
      · right; exact h
      · left; right; exact h
    · rw [dset_cons_neg b v hak] at h
      simp only [List.map_cons, List.mem_cons] at h ⊢
      rcases h with h | h
      · left; left; exact h
      · rcases ih h with h2 | h2
        · left; right; exact h2
        · right; exact h2

theorem keys_nodup_dset {d : List (String × α)} {k : String} {v : α}
    (h : (d.map Prod.fst).Nodup) : ((dset d k v).map Prod.fst).Nodup := by
  induction d with
  | nil => simp [dset]
  | cons kv rest ih =>
    obtain ⟨a, b⟩ := kv
    simp only [List.map_cons, List.nodup_cons] at h
    by_cases hak : a = k
    · rw [dset_cons_pos b v hak]
      simp only [List.map_cons, List.nodup_cons]
      exact ⟨fun hmem => h.1 (hak ▸ hmem), h.2⟩
    · rw [dset_cons_neg b v hak]
      simp only [List.map_cons, List.nodup_cons]
      refine ⟨fun hmem => ?_, ih h.2⟩
      rcases mem_keys_dset hmem with h2 | h2
      · exact h.1 h2
      · exact hak h2

theorem keys_nodup_dupdate {d u : List (String × α)}
    (h : (d.map Prod.fst).Nodup) : ((dupdate d u).map Prod.fst).Nodup := by
  induction u generalizing d with
  | nil => exact h
  | cons kv rest ih => exact ih (keys_nodup_dset h)

theorem dlookup_dupdate {u : List (String × α)} (d : List (String × α)) (k : String)
    (hu : (u.map Prod.fst).Nodup) :
    dlookup (dupdate d u) k = firstSome (dlookup u k) (dlookup d k) := by
  induction u generalizing d with
  | nil => simp [dupdate, dlookup_nil, firstSome]
  | cons kv rest ih =>
    obtain ⟨a, b⟩ := kv
    simp only [List.map_cons, List.nodup_cons] at hu
    have step : dupdate d ((a, b) :: rest) = dupdate (dset d a b) rest := rfl
    rw [step, ih _ hu.2, dlookup_cons, dlookup_dset]
    by_cases hak : a = k
    · subst hak
      rw [if_pos rfl, if_pos rfl,
        dlookup_eq_none_of_not_mem hu.1]
      simp [firstSome]
    · rw [if_neg hak, if_neg hak]

/-- Claim C3: environment composition.  With `R` the result of
`update_env` on environment `E`, overrides `O`, defaults `D` (keys of
each mapping unique, as for any Python dict): (1) `O`'s value wins on a
key shared with `E` whatever `D` holds there; (2) on a key shared by `D`
and the merged `E`-after-`O`, the non-default (merged) value wins; (3)
with pairwise disjoint key sets the result reads as `E ∪ O ∪ D`. -/
theorem c3_env_composition (E O D : EnvMap)
    (hE : (E.map Prod.fst).Nodup) (hO : (O.map Prod.fst).Nodup) :
    (∀ k v w, dlookup O k = some v → dlookup E k = some w →
      dlookup (update_env ⟨none, some O, some D, none, []⟩ E) k = some v) ∧
    (∀ k v w, dlookup D k = some v → dlookup (dupdate E O) k = some w →
      dlookup (update_env ⟨none, some O, some D, none, []⟩ E) k = some w) ∧
    ((∀ k, dlookup E k = none ∨ dlookup O k = none) →
     (∀ k, (dlookup E k = none ∧ dlookup O k = none) ∨ dlookup D k = none) →
     ∀ k, dlookup (update_env ⟨none, some O, some D, none, []⟩ E) k =
       firstSome (dlookup E k) (firstSome (dlookup O k) (dlookup D k))) := by
  have hEO : ((dupdate E O).map Prod.fst).Nodup := keys_nodup_dupdate hE
  have master : ∀ k, dlookup (update_env ⟨none, some O, some D, none, []⟩ E) k =
      firstSome (firstSome (dlookup O k) (dlookup E k)) (dlookup D k) := by
    intro k
    show dlookup (dupdate D (dupdate E O)) k = _
    rw [dlookup_dupdate D k hEO, dlookup_dupdate E k hO]
  refine ⟨?_, ?_, ?_⟩
  · intro k v w hOk _
    rw [master k, hOk]
    simp [firstSome]
  · intro k v w _ hMk
    rw [master k]
    rw [dlookup_dupdate E k hO] at hMk
    rw [hMk]
    simp [firstSome]
  · intro hdisjEO _ k
    rw [master k]
    rcases hdisjEO k with h | h
    · rw [h]
      cases dlookup O k <;> simp [firstSome]
    · rw [h]
      cases dlookup E k <;> simp [firstSome]

/-- Witness for C3 at concrete maps: `E = {VG_APP_DIR: /app, SHARED_EO: e}`,
`O = {SHARED_EO: o, ONEW: o2}`, `D = {VG_APP_DIR: dflt, DNEW: d}`. -/
theorem c3_env_composition_witness :
    (([("VG_APP_DIR", "/app"), ("SHARED_EO", "e")] : EnvMap).map Prod.fst).Nodup ∧
    (([("SHARED_EO", "o"), ("ONEW", "o2")] : EnvMap).map Prod.fst).Nodup ∧
    dlookup (update_env ⟨none, some [("SHARED_EO", "o"), ("ONEW", "o2")],
        some [("VG_APP_DIR", "dflt"), ("DNEW", "d")], none, []⟩
        [("VG_APP_DIR", "/app"), ("SHARED_EO", "e")]) "SHARED_EO" = some "o" := by
  refine ⟨by decide, by decide, ?_⟩
  exact (c3_env_composition [("VG_APP_DIR", "/app"), ("SHARED_EO", "e")]
    [("SHARED_EO", "o"), ("ONEW", "o2")] [("VG_APP_DIR", "dflt"), ("DNEW", "d")]
    (by decide) (by decide)).1 "SHARED_EO" "o" "e" (by decide) (by decide)

/-! ## Container invocation building (`task_cmd`, src/vantage/task.py lines 33-68)

`run_args += xs` becomes list concatenation; `image.pop("tag")` becomes
`pop_key` (`none` models the `KeyError` on a missing tag, and a
non-string tag is also an error since `insert_env_vals` would reject
it); `bool(image.get("tty", False))` uses Python truthiness. -/

def pop_key (d : List (String × α)) (k : String) : Option (α × List (String × α)) :=
  match dlookup d k with
  | none => none
  | some v => some (v, d.eraseP fun kv => decide (kv.1 = k))

def pyTruthyImageVal : Option ImageVal → Bool
  | some (ImageVal.bool b) => b
  | some (ImageVal.str s) => !s.isEmpty
  | some (ImageVal.list l) => !l.isEmpty
  | none => false

/-- The `for k, v in image.items()` option-flattening loop, verbatim:
a list value appends one `--k <substituted>` pair per element, a boolean
appends the bare `--k` flag only when true, any other value appends a
single `--k <substituted>` pair. -/
def flatten_image_opts (opts : List (String × ImageVal)) (env : EnvMap) (args : List String) :
    List String :=
  opts.foldl
    (fun acc kv =>
      match kv.2 with
      | ImageVal.list l =>
        l.foldl (fun acc2 w => acc2 ++ ["--" ++ kv.1, insert_env_vals w env args]) acc
      | ImageVal.bool b => if b then acc ++ ["--" ++ kv.1] else acc
      | ImageVal.str s => acc ++ ["--" ++ kv.1, insert_env_vals s env args]) []

/-- The flattening of a single image-spec key as the specification
states it, case by case; claim C8 compares the loop above against the
per-key concatenation of these. -/
def flatten_one_key (env : EnvMap) (args : List String) (kv : String × ImageVal) : List String :=
  match kv.2 with
  | ImageVal.list l => (l.map fun w => ["--" ++ kv.1, insert_env_vals w env args]).flatten
  | ImageVal.bool b => if b then ["--" ++ kv.1] else []
  | ImageVal.str s => ["--" ++ kv.1, insert_env_vals s env args]

theorem foldl_append_eq (f : α → List β) (l : List α) (acc : List β) :
    l.foldl (fun a x => a ++ f x) acc = acc ++ (l.map f).flatten := by
  induction l generalizing acc with
  | nil => simp
  | cons x xs ih => simp [ih, List.append_assoc]

theorem flatten_image_opts_acc (env : EnvMap) (args : List String)
    (opts : List (String × ImageVal)) (acc : List String) :
    opts.foldl
      (fun acc kv =>
        match kv.2 with
        | ImageVal.list l =>
          l.foldl (fun acc2 w => acc2 ++ ["--" ++ kv.1, insert_env_vals w env args]) acc
        | ImageVal.bool b => if b then acc ++ ["--" ++ kv.1] else acc
        | ImageVal.str s => acc ++ ["--" ++ kv.1, insert_env_vals s env args]) acc
      = acc ++ (opts.map (flatten_one_key env args)).flatten := by
  induction opts generalizing acc with
  | nil => simp
  | cons kv rest ih =>
    obtain ⟨k, v⟩ := kv
    cases v with
    | list l =>
      simp only [List.foldl_cons, ih, List.map_cons, List.flatten_cons]
      rw [foldl_append_eq (fun w => ["--" ++ k, insert_env_vals w env args]) l acc]
      simp [flatten_one_key, List.append_assoc]
    | bool b =>
      cases b <;> simp [List.foldl_cons, ih, flatten_one_key, List.append_assoc]
    | str s =>
      simp [List.foldl_cons, ih, flatten_one_key, List.append_assoc]

/-- Claim C8: the option-flattening loop emits, in mapping iteration
order, exactly the per-key segments the spec describes — one
`--key value` pair per list element, a bare `--key` flag for `true`,
nothing for `false`, and a single `--key value` pair otherwise —
including the spec's three concrete examples. -/
theorem c8_image_option_flattening (env : EnvMap) (args : List String) :
    (∀ opts, flatten_image_opts opts env args =
      (opts.map (flatten_one_key env args)).flatten) ∧
    flatten_image_opts [("rm", ImageVal.bool true)] env args = ["--rm"] ∧
    flatten_image_opts [("rm", ImageVal.bool false)] env args = [] ∧
    flatten_image_opts [("network", ImageVal.list ["a", "b"])] [] [] =
      ["--network", "a", "--network", "b"] := by
  have hmain : ∀ opts, flatten_image_opts opts env args =
      (opts.map (flatten_one_key env args)).flatten := by
    intro opts
    rw [show flatten_image_opts opts env args = _ from
      flatten_image_opts_acc env args opts []]
    simp
  refine ⟨hmain, ?_, ?_, ?_⟩
  · rw [hmain]
    simp [flatten_one_key]
  · rw [hmain]
    simp [flatten_one_key]
  · decide

/-- The container branch of `task_cmd`: base arguments, image-dependent
options, one `--env` flag per environment key, the tag, the fixed entry
point, then the user arguments; the boolean is `tty_in`. -/
def task_cmd_image_args (pathStr : String) (image : ImageMeta) (env : EnvMap)
    (args : List String) : Option (Bool × List String) :=
  let base := ["run", "--volume", pathStr ++ ":/vg-task",
    "--label", "vantage", "--label", "vantage-task"]
  match image with
  | ImageMeta.bare tag =>
    let ra := env.foldl (fun acc kv => acc ++ ["--env", kv.1]) (base ++ ["--rm"])
    some (false, ra ++ [tag, "/vg-task"] ++ args)
  | ImageMeta.structured d =>
    let tty := pyTruthyImageVal (dlookup d "tty")
    match pop_key d "tag" with
    | none => none
    | some (ImageVal.str tagStr, rest) =>
      let ra := env.foldl (fun acc kv => acc ++ ["--env", kv.1])
        (base ++ flatten_image_opts rest env args)
      some (tty, ra ++ [insert_env_vals tagStr env args, "/vg-task"] ++ args)
    | some _ => none

/-- Claim C5: a bare-string image yields exactly `run`, the volume mount
of the task directory onto `/vg-task`, the two fixed labels, `--rm`, one
`--env KEY` per environment key in order, the tag verbatim, `/vg-task`,
then the user arguments — and nothing else; `tty_in` stays false. -/
theorem c5_bare_image_invocation (pathStr tag : String) (env : EnvMap) (args : List String) :
    task_cmd_image_args pathStr (ImageMeta.bare tag) env args =
      some (false,
        ["run", "--volume", pathStr ++ ":/vg-task",
          "--label", "vantage", "--label", "vantage-task", "--rm"]
        ++ (env.map fun kv => ["--env", kv.1]).flatten
        ++ [tag, "/vg-task"] ++ args) := by
  simp only [task_cmd_image_args]
  rw [foldl_append_eq (fun kv : String × String => ["--env", kv.1]) env]
  simp [List.append_assoc]

/-! ## Exit-code propagation (`task_cmd`, src/vantage/task.py lines 82-87)

`sh` raises `ErrorReturnCode` carrying the child's exit code exactly
when that code is non-zero; the handler calls
`sys.exit(erc.exit_code)`, and a normal return exits with 0. -/

inductive ShResult where
  | ok
  | errorReturnCode (code : Nat)
deriving Repr, DecidableEq

def sh_run (exitCode : Nat) : ShResult :=
  if exitCode = 0 then ShResult.ok else ShResult.errorReturnCode exitCode

def task_cmd_exit (spawnedExit : Nat) : Nat :=
  match sh_run spawnedExit with
  | ShResult.ok => 0
  | ShResult.errorReturnCode c => c

/-- Claim C6: the orchestrator's final exit code equals the spawned
process's exit code — no wrapping, remapping or retry — and zero means
success. -/
theorem c6_exit_code_passthrough :
    ∀ c : Nat, task_cmd_exit c = c ∧ (task_cmd_exit c = 0 ↔ c = 0) := by
  intro c
  by_cases h : c = 0 <;> simp [task_cmd_exit, sh_run, h]

/-! ## `load_meta` (src/vantage/task.py lines 102-114)

Scan the task file's lines for the first line containing `---`; with no
such line return empty metadata (modelled `Except.ok none`).  Otherwise
split the content in at most three parts on that delimiter line
(`ValueError` — `Except.error` — when it occurs fewer than twice),
strip the re-occurring comment marker from line starts of the metadata
block, and hand the cleaned text to the YAML parser (kept abstract:
`Except.ok (some cleanedText)`). -/

def load_meta (content : String) : Except String (Option String) :=
  match (pySplitlines content).find? (fun l => strContains l "---") with
  | none => Except.ok none
  | some sep =>
    match split2 content.data sep.data with
    | none => Except.error "ValueError: not enough values to unpack"
    | some (_, metaPart, _) =>
      let marker := strReplace sep "---" ""
      Except.ok (some (strReplace ⟨metaPart⟩ ("\n" ++ marker) "\n"))

/-- Claim C9: a task file whose text has no line containing `---` parses
to empty metadata and never to an error. -/
theorem c9_no_delimiter_empty_meta (content : String)
    (h : ∀ l ∈ pySplitlines content, strContains l "---" = false) :
    load_meta content = Except.ok none := by
  unfold load_meta
  have hnone : (pySplitlines content).find? (fun l => strContains l "---") = none := by
    rw [List.find?_eq_none]
    intro l hl
    simp [h l hl]
  rw [hnone]

/-- Witness for C9 on a concrete delimiter-free shell script. -/
theorem c9_no_delimiter_empty_meta_witness :
    (∀ l ∈ pySplitlines "#!/bin/sh\necho hello\n", strContains l "---" = false) ∧
    load_meta "#!/bin/sh\necho hello\n" = Except.ok none := by
  refine ⟨by decide, ?_⟩
  exact c9_no_delimiter_empty_meta "#!/bin/sh\necho hello\n" (by decide)

/-! ## Frame effect of `task_cmd` on the memoized metadata (claim C10)

`load_meta` is wrapped in `lru_cache`, so every call for the same path
returns the same mapping object.  `task_cmd` then mutates that object:
`image.pop("tag")` removes the tag from the cached image mapping, and
`update_env` runs `defaults.update(env)` on the cached defaults mapping.
The cache is modelled as a path-keyed mapping to metadata objects and
one run of `task_cmd` as a function from cache to cache. -/

abbrev MetaCache := List (String × MetaObj)

/-- The mutations one `task_cmd` run performs on the (shared, cached)
metadata object: the full post-override environment is merged into the
`defaults` mapping, and `tag` is popped out of a structured `image`
mapping (`none` models the `KeyError` of `pop` on a missing tag). -/
def task_cmd_meta_effect (m : MetaObj) (env0 : EnvMap) : Option MetaObj :=
  let env1 := match m.overrides with
    | none => env0
    | some o => dupdate env0 o
  let defaults2 := m.defaults.map fun d => dupdate d env1
  match m.image with
  | some (ImageMeta.structured d) =>
    match pop_key d "tag" with
    | none => none
    | some (_, rest) =>
      some { m with image := some (ImageMeta.structured rest), defaults := defaults2 }
  | img => some { m with image := img, defaults := defaults2 }

/-- Executing the task at `p` (whose metadata must already sit in the
`lru_cache`) updates the cached object in place. -/
def run_task_meta (c : MetaCache) (p : String) (env0 : EnvMap) : Option MetaCache :=
  match dlookup c p with
  | none => none
  | some m => (task_cmd_meta_effect m env0).map fun m2 => dset c p m2

theorem dlookup_eraseP_self {d : List (String × α)} {k : String}
    (h : (d.map Prod.fst).Nodup) :
    dlookup (d.eraseP fun kv => decide (kv.1 = k)) k = none := by
  induction d with
  | nil => rfl
  | cons kv rest ih =>
    obtain ⟨a, b⟩ := kv
    simp only [List.map_cons, List.nodup_cons] at h
    by_cases hak : a = k
    · rw [List.eraseP_cons_of_pos (by simpa using hak)]
      exact dlookup_eq_none_of_not_mem fun hm => h.1 (hak ▸ hm)
    · rw [List.eraseP_cons_of_neg (by simpa using hak), dlookup_cons, if_neg hak]
      exact ih h.2

/-- Claim C10: running a task whose cached metadata holds a structured
image spec (unique keys, `tag` present) leaves the cache changed: the
second lookup of the same path yields a metadata object different from
the first, whose image mapping no longer contains `tag`. -/
theorem c10_cached_meta_mutation (c : MetaCache) (p : String) (env0 : EnvMap)
    (m : MetaObj) (d : List (String × ImageVal)) (v : ImageVal)
    (hm : dlookup c p = some m)
    (him : m.image = some (ImageMeta.structured d))
    (hd : (d.map Prod.fst).Nodup)
    (htag : dlookup d "tag" = some v) :
    ∃ c2 m2, run_task_meta c p env0 = some c2 ∧
      dlookup c2 p = some m2 ∧
      (∃ d2, m2.image = some (ImageMeta.structured d2) ∧ dlookup d2 "tag" = none) ∧
      m2 ≠ m := by
  have hpop : pop_key d "tag" = some (v, d.eraseP fun kv => decide (kv.1 = "tag")) := by
    unfold pop_key
    rw [htag]
  have heff : task_cmd_meta_effect m env0 =
      some { m with
        image := some (ImageMeta.structured (d.eraseP fun kv => decide (kv.1 = "tag"))),
        defaults := m.defaults.map fun dd => dupdate dd
          (match m.overrides with | none => env0 | some o => dupdate env0 o) } := by
    simp only [task_cmd_meta_effect, him, hpop]
  refine ⟨dset c p { m with
      image := some (ImageMeta.structured (d.eraseP fun kv => decide (kv.1 = "tag"))),
      defaults := m.defaults.map fun dd => dupdate dd
        (match m.overrides with | none => env0 | some o => dupdate env0 o) },
    { m with
      image := some (ImageMeta.structured (d.eraseP fun kv => decide (kv.1 = "tag"))),
      defaults := m.defaults.map fun dd => dupdate dd
        (match m.overrides with | none => env0 | some o => dupdate env0 o) },
    ?_, ?_, ?_, ?_⟩
  · simp only [run_task_meta, hm, heff, Option.map_some']
  · rw [dlookup_dset, if_pos rfl]
  · exact ⟨_, rfl, dlookup_eraseP_self hd⟩
  · intro hcontra
    have himg := congrArg MetaObj.image hcontra
    simp only [him] at himg
    have hd2 : (d.eraseP fun kv => decide (kv.1 = "tag")) = d := by
      have := himg
      simp only [Option.some.injEq, ImageMeta.structured.injEq] at this
      exact this
    have : dlookup (d.eraseP fun kv => decide (kv.1 = "tag")) "tag" = none :=
      dlookup_eraseP_self hd
    rw [hd2, htag] at this
    exact Option.noConfusion this

/-- Witness for C10: a cached task at path `/tasks/build` with image
`{tag: myimage, rm: true}`; after one run the cached image mapping has
lost its `tag` key. -/
theorem c10_cached_meta_mutation_witness :
    dlookup [("/tasks/build",
      (⟨some (ImageMeta.structured [("tag", ImageVal.str "myimage"), ("rm", ImageVal.bool true)]),
        none, none, none, []⟩ : MetaObj))] "/tasks/build" =
      some ⟨some (ImageMeta.structured [("tag", ImageVal.str "myimage"), ("rm", ImageVal.bool true)]),
        none, none, none, []⟩ ∧
    ∃ c2 m2,
      run_task_meta [("/tasks/build",
        (⟨some (ImageMeta.structured [("tag", ImageVal.str "myimage"), ("rm", ImageVal.bool true)]),
          none, none, none, []⟩ : MetaObj))] "/tasks/build" [("VG_APP_DIR", "/app")] = some c2 ∧
      dlookup c2 "/tasks/build" = some m2 ∧
      (∃ d2, m2.image = some (ImageMeta.structured d2) ∧ dlookup d2 "tag" = none) ∧
      m2 ≠ ⟨some (ImageMeta.structured [("tag", ImageVal.str "myimage"), ("rm", ImageVal.bool true)]),
        none, none, none, []⟩ := by
  refine ⟨rfl, ?_⟩
  exact c10_cached_meta_mutation _ "/tasks/build" [("VG_APP_DIR", "/app")] _
    [("tag", ImageVal.str "myimage"), ("rm", ImageVal.bool true)] (ImageVal.str "myimage")
    rfl rfl (by decide) rfl

/-! ## Task locator (src/vantage/task.py lines 150-186)

A filesystem root is a tree of named entries; a file carries its
executable bit (`is_executable`: regular file with execute permission).
`get_task_from_dir` follows the source exactly, including the Python
loop-variable reuse: after `for task_path in dir_.glob(f"{name}.*")`
exhausts without returning, `task_path` is the *last* glob match when
the glob was non-empty, and `dir_ / name` only when the glob matched
nothing; it is that value whose `is_dir()` is tested.  Glob `name.*`
matches an entry whose filename starts with `name.`.  `as_command` /
`as_group` results are modelled by the path of the matched entry. -/

inductive FSEntry where
  | file (exec : Bool)
  | dir (entries : List (String × FSEntry))

inductive TaskRef where
  | leaf (path : List String)
  | group (path : List String)
deriving Repr, DecidableEq

def childNamed (entries : List (String × FSEntry)) (n : String) : Option FSEntry :=
  (entries.find? fun kv => decide (kv.1 = n)).map Prod.snd

def isExecEntry : Option FSEntry → Bool
  | some (FSEntry.file true) => true
  | _ => false

def globMatch (name fname : String) : Bool :=
  List.isPrefixOf (name.data ++ ['.']) fname.data

def get_task_from_dir (entries : List (String × FSEntry)) (dirPath : List String)
    (name : String) : Option TaskRef :=
  if isExecEntry (childNamed entries name) then
    some (TaskRef.leaf (dirPath ++ [name]))
  else
    match (entries.filter fun kv => globMatch name kv.1).find?
        (fun kv => isExecEntry (some kv.2)) with
    | some kv => some (TaskRef.leaf (dirPath ++ [kv.1]))
    | none =>
      match hlast : (entries.filter fun kv => globMatch name kv.1).getLast? with
      | some (fname, FSEntry.dir sub) =>
        match get_task_from_dir sub (dirPath ++ [fname]) name with
        | some t => some t
        | none => some (TaskRef.group (dirPath ++ [fname]))
      | some (_, FSEntry.file _) => none
      | none =>
        match hchild : entries.find? fun kv => decide (kv.1 = name) with
        | some (_, FSEntry.dir sub) =>
          match get_task_from_dir sub (dirPath ++ [name]) name with
          | some t => some t
          | none => some (TaskRef.group (dirPath ++ [name]))
        | _ => none
termination_by sizeOf entries
decreasing_by
  · have h1 : (fname, FSEntry.dir sub) ∈ entries.filter fun kv => globMatch name kv.1 :=
      List.mem_of_getLast?_eq_some hlast
    have h2 : (fname, FSEntry.dir sub) ∈ entries := List.mem_of_mem_filter h1
    have h3 := List.sizeOf_lt_of_mem h2
    simp only [Prod.mk.sizeOf_spec, FSEntry.dir.sizeOf_spec] at h3
    omega
  · have h2 := List.mem_of_find?_eq_some hchild
    have h3 := List.sizeOf_lt_of_mem h2
    simp only [Prod.mk.sizeOf_spec, FSEntry.dir.sizeOf_spec] at h3
    omega

/-- `get_task`: try each root in order, skipping a root that is not a
directory; the first root returning a task wins; if neither yields one
the function falls off its end, i.e. returns `None`. -/
def lookup_root (root : FSEntry) (name : String) : Option TaskRef :=
  match root with
  | FSEntry.dir entries => get_task_from_dir entries [] name
  | FSEntry.file _ => none

def get_task (taskRoot pluginsRoot : FSEntry) (name : String) : Option TaskRef :=
  match lookup_root taskRoot name with
  | some t => some t
  | none => lookup_root pluginsRoot name

theorem get_task_from_dir_nested_dir (entries : List (String × FSEntry)) (dirPath : List String)
    (name : String) (sub : List (String × FSEntry))
    (hnotexec : isExecEntry (childNamed entries name) = false)
    (hglob : (entries.filter fun kv => globMatch name kv.1) = [])
    (hchild : entries.find? (fun kv => decide (kv.1 = name)) = some (name, FSEntry.dir sub)) :
    get_task_from_dir entries dirPath name =
      some ((get_task_from_dir sub (dirPath ++ [name]) name).getD
        (TaskRef.group (dirPath ++ [name]))) := by
  rw [get_task_from_dir.eq_def, hglob, hchild]
  simp only [hnotexec, Bool.false_eq_true, if_false, List.find?_nil, List.getLast?_nil]
  cases get_task_from_dir sub (dirPath ++ [name]) name <;> simp

/-- Claim C7: behaviour of the locator at the failing input.  In a root
holding a non-executable `foo.txt` and a directory `foo/` that contains
an executable `foo`, locating `foo` returns nothing at all — the glob
loop has rebound `task_path` to its last match `foo.txt`, so the
directory test is applied to `foo.txt` instead of `foo/` — although the
claimed behaviour does hold whenever the glob matches nothing: without
`foo.txt` the same layout yields the nested leaf `foo/foo`, and with no
like-named leaf inside it yields the directory as a group. -/
theorem c7_glob_shadowing_loses_nested_dir :
    get_task_from_dir
      [("foo.txt", FSEntry.file false), ("foo", FSEntry.dir [("foo", FSEntry.file true)])]
      [] "foo" = none ∧
    get_task_from_dir [("foo", FSEntry.dir [("foo", FSEntry.file true)])] [] "foo" =
      some (TaskRef.leaf ["foo", "foo"]) ∧
    get_task_from_dir [("foo", FSEntry.dir [("bar", FSEntry.file true)])] [] "foo" =
      some (TaskRef.group ["foo"]) := by
  refine ⟨?_, ?_, ?_⟩
  · rw [get_task_from_dir.eq_def]
    decide
  · have hinner : get_task_from_dir [("foo", FSEntry.file true)] ["foo"] "foo" =
        some (TaskRef.leaf ["foo", "foo"]) := by
      rw [get_task_from_dir.eq_def]
      decide
    rw [get_task_from_dir_nested_dir
      [("foo", FSEntry.dir [("foo", FSEntry.file true)])] [] "foo"
      [("foo", FSEntry.file true)] rfl rfl rfl]
    rw [show ([] : List String) ++ ["foo"] = ["foo"] from rfl, hinner]
    rfl
  · have hinner : get_task_from_dir [("bar", FSEntry.file true)] ["foo"] "foo" = none := by
      rw [get_task_from_dir.eq_def]
      decide
    rw [get_task_from_dir_nested_dir
      [("foo", FSEntry.dir [("bar", FSEntry.file true)])] [] "foo"
      [("bar", FSEntry.file true)] rfl rfl rfl]
    rw [show ([] : List String) ++ ["foo"] = ["foo"] from rfl, hinner]
    rfl

/-- Claim C4 counterexample: with the name `missing` resolvable in
neither root, `get_task` falls off its end and yields `none` — the
plain absence of a result, not a raised `TaskNotFound` (no such error
exists anywhere in the source; the `for` loop simply ends and the
function returns `None`). -/
theorem c4_missing_task_counterexample :
    get_task (FSEntry.dir []) (FSEntry.dir [("build", FSEntry.file true)]) "missing" =
      none := by
  have h1 : get_task_from_dir [] [] "missing" = none := by
    rw [get_task_from_dir.eq_def]
    decide
  have h2 : get_task_from_dir [("build", FSEntry.file true)] [] "missing" = none := by
    rw [get_task_from_dir.eq_def]
    decide
  simp [get_task, lookup_root, h1, h2]

/-- Claim C4 (amended): for every task name that no search root resolves
(each root is either not a directory or its lookup yields nothing),
`get_task` returns `none` — a silent empty result for the caller to deal
with, rather than an explicit `TaskNotFound` failure. -/
theorem c4_unresolvable_returns_none (r1 r2 : FSEntry) (name : String)
    (h : ∀ r ∈ [r1, r2], ∀ es, r = FSEntry.dir es →
      get_task_from_dir es [] name = none) :
    get_task r1 r2 name = none := by
  have h1 : lookup_root r1 name = none := by
    cases r1 with
    | file e => rfl
    | dir es => exact h (FSEntry.dir es) (by simp) es rfl
  have h2 : lookup_root r2 name = none := by
    cases r2 with
    | file e => rfl
    | dir es => exact h (FSEntry.dir es) (by simp) es rfl
  simp [get_task, h1, h2]

/-- Witness for C4 (amended) on two concrete roots. -/
theorem c4_unresolvable_returns_none_witness :
    (∀ r ∈ [FSEntry.dir [], FSEntry.dir [("build", FSEntry.file true)]], ∀ es,
      r = FSEntry.dir es → get_task_from_dir es [] "missing" = none) ∧
    get_task (FSEntry.dir []) (FSEntry.dir [("build", FSEntry.file true)]) "missing" =
      none := by
  have hempty : get_task_from_dir [] [] "missing" = none := by
    rw [get_task_from_dir.eq_def]
    decide
  have hbuild : get_task_from_dir [("build", FSEntry.file true)] [] "missing" = none := by
    rw [get_task_from_dir.eq_def]
    decide
  have hh : ∀ r ∈ [FSEntry.dir [], FSEntry.dir [("build", FSEntry.file true)]], ∀ es,
      r = FSEntry.dir es → get_task_from_dir es [] "missing" = none := by
    intro r hr es he
    simp only [List.mem_cons, List.not_mem_nil, or_false] at hr
    rcases hr with h | h
    · subst h
      injection he with h2
      subst h2
      exact hempty
    · subst h
      injection he with h2
      subst h2
      exact hbuild
  exact ⟨hh, c4_unresolvable_returns_none _ _ _ hh⟩
